import Mathlib

/-
  Verification of the agent session/context orchestration layer of the
  pedagogique-partenaire-intelligent repository.

  The frontend chat/session logic is embedded from src/src/pages/Generate.tsx
  (the `Generate` component: `createSession`, `handleSendMessage`, the course
  lookup effect and the send-button guard).  The backend orchestration modules
  (agentic_workflow_system.py, agent.py, models.py) are not present in the
  source tree; the definitions for the workflow phase machine, the router, the
  context assembler and the memory index are modelled from the specification
  and from the design documents (ENHANCED_SESSION_MANAGEMENT.md,
  MEMORY_AND_COURSE_CONTEXT_PLAN.md, CODEBASE_INFO.md) and are marked
  `Modelled from the spec:` in their doc comments.
-/

namespace Spec2Proof

/-! ### Workflow phases (spec section 4.5) -/

/-- Modelled from the spec: the closed enumeration of main workflow phases of
the Workflow Orchestrator (agentic_workflow_system.py is absent from src/). -/
inductive MainPhase where
  | needsAnalysis
  | objectivesCaptured
  | structureProposed
  | draftReady
  | done
deriving Repr, DecidableEq

/-- Modelled from the spec: a workflow phase is either a main phase or the
side state `RevisionRequested`, which remembers the main state that produced
the artifact under revision. -/
inductive WorkflowPhase where
  | main (p : MainPhase)
  | revisionRequested (origin : MainPhase)
deriving Repr, DecidableEq

/-- Position of a main phase along the forward chain. -/
def MainPhase.idx : MainPhase → Nat
  | .needsAnalysis => 0
  | .objectivesCaptured => 1
  | .structureProposed => 2
  | .draftReady => 3
  | .done => 4

/-- Modelled from the spec: the forward successor of a main phase. -/
def MainPhase.advance : MainPhase → MainPhase
  | .needsAnalysis => .objectivesCaptured
  | .objectivesCaptured => .structureProposed
  | .structureProposed => .draftReady
  | .draftReady => .done
  | .done => .done

/-- Position of a workflow phase: the side state sits at the position of the
main state that produced the artifact under revision. -/
def WorkflowPhase.idx : WorkflowPhase → Nat
  | .main p => p.idx
  | .revisionRequested origin => origin.idx

/-- The specialized agents of the system (spec section 4.4). -/
inductive AgentId where
  | orchestrator
  | objectivesAgent
  | syllabusAgent
  | assessmentAgent
deriving Repr, DecidableEq

/-- Modelled from the spec: the agent pinned by each main phase of a
structured flow. -/
def MainPhase.agentFor : MainPhase → AgentId
  | .needsAnalysis => .objectivesAgent
  | .objectivesCaptured => .syllabusAgent
  | .structureProposed => .assessmentAgent
  | .draftReady => .assessmentAgent
  | .done => .orchestrator

/-- Modelled from the spec: the agent invoked for a turn in a given phase.
`Done` is terminal: no agent invocation occurs once it is reached. -/
def WorkflowPhase.invokedAgent : WorkflowPhase → Option AgentId
  | .main .done => none
  | .main p => some p.agentFor
  | .revisionRequested origin => some origin.agentFor

/-- Modelled from the spec: outcome of the guardrail / A2A review step on an
agent artifact (spec sections 4.5 and 4.6). -/
inductive ReviewOutcome where
  | approval
  | guardrailRejection (reason : String)
  | revisionRequest (feedback : String)
deriving Repr, DecidableEq

/-- Modelled from the spec: phase transition rule of the Workflow
Orchestrator.  A state advances only when the artifact is approved; a
guardrail rejection stays in place; a revision request moves to the side
state, which returns to the state that produced the artifact. -/
def nextPhase : WorkflowPhase → ReviewOutcome → WorkflowPhase
  | .main .done, _ => .main .done
  | .main p, .approval => .main p.advance
  | .main p, .guardrailRejection _ => .main p
  | .main p, .revisionRequest _ => .revisionRequested p
  | .revisionRequested origin, _ => .main origin

/-- The transitions permitted by the state machine of spec section 4.5:
stay in place, advance forward, enter the revision side state, or return
from the side state to the state that produced the artifact. -/
def allowedTransitionB (p q : WorkflowPhase) : Bool :=
  decide (q = p) ||
  (match p, q with
   | .main m, .main m2 => decide (m2 = m.advance)
   | .main m, .revisionRequested m2 => decide (m2 = m)
   | .revisionRequested m, .main m2 => decide (m2 = m)
   | _, _ => false)

/-! ### Sessions, scoped state and turns (spec section 3) -/

/-- The four state scopes of the Context Store. -/
inductive Scope where
  | session
  | user
  | app
  | ephemeral
deriving Repr, DecidableEq

/-- A turn of a session: user message, agent response, chosen agent,
timestamp. -/
structure Turn where
  userMessage : String
  agentResponse : String
  agentId : AgentId
  timestamp : Nat
deriving Repr, DecidableEq

/-- Modelled from the spec: a Session record of the orchestration layer
(the ADK session objects of agentic_workflow_system.py are absent
from src/). -/
structure Session where
  sessionId : String
  userId : String
  courseId : Option String
  phase : WorkflowPhase
  entries : List (Scope × String × String)
  turns : List Turn
  lastActivity : Nat
deriving Repr, DecidableEq

/-- Write a scoped state entry, replacing any previous value for the same
(scope, key). -/
def setEntry (entries : List (Scope × String × String)) (sc : Scope) (k v : String) :
    List (Scope × String × String) :=
  (entries.filter (fun e => !(decide (e.1 = sc ∧ e.2.1 = k)))) ++ [(sc, k, v)]

/-- Outcome of one attempt at the underlying language-model call. -/
inductive AttemptOutcome where
  | ok (artifact : String)
  | timeout
  | failure (message : String)
deriving Repr, DecidableEq

/-- Modelled from the spec: the fixed retry bound of the orchestrator
(spec section 4.6: up to 2 retries before `AgentUnavailable`). -/
def retryBudget : Nat := 2

/-- First successful artifact among a list of attempt outcomes. -/
def firstSuccess : List AttemptOutcome → Option String
  | [] => none
  | .ok a :: _ => some a
  | .timeout :: rest => firstSuccess rest
  | .failure _ :: rest => firstSuccess rest

/-- Result of a chat turn as seen by the caller. -/
inductive TurnResult where
  | success (response : String)
  | agentUnavailable
deriving Repr, DecidableEq

/-- Output of processing one chat turn: caller-visible result, the session
after the turn, and the agent that was invoked (if any). -/
structure TurnOutput where
  result : TurnResult
  session : Session
  invoked : Option AgentId
deriving Repr, DecidableEq

/-- Modelled from the spec: `handle_chat_message_enhanced` of
agentic_workflow_system.py (absent from src/).  In phase `Done` the session
is queryable but no agent is invoked and nothing is mutated.  Otherwise the
agent call is attempted up to `retryBudget + 1` times; if every attempt
fails the turn surfaces `agentUnavailable` and the session is returned
unchanged; on success the review outcome drives the phase transition, the
turn is appended to history and the scoped state is updated. -/
def handle_chat_message_enhanced (s : Session) (message : String) (now : Nat)
    (attempts : List AttemptOutcome) (review : ReviewOutcome) : TurnOutput :=
  match s.phase.invokedAgent with
  | none => { result := .success "Workflow complete.", session := s, invoked := none }
  | some agent =>
    match firstSuccess (attempts.take (retryBudget + 1)) with
    | none => { result := .agentUnavailable, session := s, invoked := some agent }
    | some artifact =>
      let entries1 :=
        match review with
        | .guardrailRejection reason => setEntry s.entries .session "guardrail_failure" reason
        | .revisionRequest feedback => setEntry s.entries .session "revision_feedback" feedback
        | .approval => s.entries
      { result := .success artifact,
        session := { s with
          phase := nextPhase s.phase review,
          entries := setEntry entries1 .session "last_response" artifact,
          turns := s.turns ++
            [{ userMessage := message, agentResponse := artifact,
               agentId := agent, timestamp := now }],
          lastActivity := now },
        invoked := some agent }

/-- The inputs of one chat turn. -/
structure TurnInput where
  message : String
  now : Nat
  attempts : List AttemptOutcome
  review : ReviewOutcome
deriving Repr, DecidableEq

/-- Run a sequence of chat turns, collecting the agent invoked at each one. -/
def runTurns (s : Session) : List TurnInput → Session × List (Option AgentId)
  | [] => (s, [])
  | i :: rest =>
    let out := handle_chat_message_enhanced s i.message i.now i.attempts i.review
    ((runTurns out.session rest).1, out.invoked :: (runTurns out.session rest).2)

/-- A session that has reached the terminal phase, used to instantiate the
terminal-state theorem. -/
def doneSession : Session :=
  { sessionId := "s1", userId := "u1", courseId := some "c1",
    phase := .main .done, entries := [], turns := [], lastActivity := 0 }

/-- A session in the first main phase, used to instantiate the
failure-leaves-session-unchanged theorem. -/
def activeSession : Session :=
  { sessionId := "s2", userId := "u1", courseId := some "c1",
    phase := .main .needsAnalysis, entries := [], turns := [], lastActivity := 0 }

/-- A sample turn input used by witnesses. -/
def sampleTurn : TurnInput :=
  { message := "Define objectives", now := 7,
    attempts := [.ok "objectives drafted"], review := .approval }

/-! ### Agent Router (spec section 4.4) -/

/-- Whitespace trimming (the semantics of the JavaScript `trim()` used by the
source), written on the character list so that it is kernel-computable. -/
def strTrim (s : String) : String :=
  String.mk (((s.data.dropWhile Char.isWhitespace).reverse.dropWhile
    Char.isWhitespace).reverse)

/-- Lower-casing (the semantics of `toLowerCase()`), written on the character
list so that it is kernel-computable. -/
def strLower (s : String) : String :=
  String.mk (s.data.map Char.toLower)

/-- Is `needle` an initial segment of `haystack`? -/
def beginsWith : List Char → List Char → Bool
  | [], _ => true
  | _ :: _, [] => false
  | a :: as, b :: bs => (a == b) && beginsWith as bs

/-- Does `needle` occur contiguously inside `haystack`? -/
def occursIn (needle : List Char) : List Char → Bool
  | [] => needle.isEmpty
  | b :: bs => beginsWith needle (b :: bs) || occursIn needle bs

/-- Substring occurrence on strings. -/
def strOccurs (needle haystack : String) : Bool :=
  occursIn needle.toList haystack.toList

/-- Modelled from the spec: keyword scoring of a message against the label of
a classification bucket — the number of the keywords of the label occurring
in the message. -/
def keywordScore (keywords : List String) (message : String) : Nat :=
  (keywords.filter (fun k => strOccurs k message)).length

/-- Keywords of the `objectives` label. -/
def objectivesKeywords : List String :=
  ["objectif", "objective", "goal", "learning outcome"]

/-- Keywords of the `syllabus` label. -/
def syllabusKeywords : List String :=
  ["syllabus", "plan de cours", "structure", "module"]

/-- Keywords of the `assessment` label. -/
def assessmentKeywords : List String :=
  ["assessment", "exam", "quiz", "question", "evaluation"]

/-- Modelled from the spec: content classification of an ad hoc message
against the labeled set objectives / syllabus / assessment / general,
returning the best match and the generic orchestrator agent on ties or
unmatched input (the routing code of agent.py is absent from src/). -/
def classifyMessage (message : String) : AgentId :=
  let m := strLower message
  let so := keywordScore objectivesKeywords m
  let ss := keywordScore syllabusKeywords m
  let sa := keywordScore assessmentKeywords m
  let best := max so (max ss sa)
  if best = 0 then .orchestrator
  else if (so = best ∧ ss = best) ∨ (so = best ∧ sa = best) ∨ (ss = best ∧ sa = best) then
    .orchestrator
  else if so = best then .objectivesAgent
  else if ss = best then .syllabusAgent
  else .assessmentAgent

/-- Modelled from the spec: the agent pinned by the current phase of a
structured flow; an open (ad hoc) session, and the queryable terminal
phase, pin no agent. -/
def pinnedAgent : Option WorkflowPhase → Option AgentId
  | none => none
  | some p => p.invokedAgent

/-- Modelled from the spec: `route(session, message)`.  The phase is examined
first; if it pins an agent that agent is returned, otherwise the message is
classified. -/
def route (phase : Option WorkflowPhase) (message : String) : AgentId :=
  match pinnedAgent phase with
  | some a => a
  | none => classifyMessage message

/-! ### Memory Index (spec section 4.2) -/

/-- Modelled from the spec: an immutable memory record of the Memory Index
(user profile or course snapshot), as described in
ENHANCED_SESSION_MANAGEMENT.md. -/
structure MemoryRecord where
  recordType : String
  user_id : String
  content : String
  metadata : String
  createdAt : Nat
deriving Repr, DecidableEq

/-- Split a character list at spaces, keeping empty fragments. -/
def wordsAux (cur : List Char) : List Char → List String
  | [] => [String.mk cur.reverse]
  | c :: rest =>
    if c = ' ' then String.mk cur.reverse :: wordsAux [] rest
    else wordsAux (c :: cur) rest

/-- The non-empty lowercased words of a query. -/
def queryWords (q : String) : List String :=
  (wordsAux [] (strLower q).data).filter (fun w => !(w == ""))

/-- Modelled from the spec: substring/keyword scoring of a record against a
query — the number of query words occurring in the `content` field. -/
def relevance (q : String) (r : MemoryRecord) : Nat :=
  ((queryWords q).filter (fun w => strOccurs w (strLower r.content))).length

/-- Ranking of memory records: by relevance, then by recency. -/
def rankRel (q : String) (a b : MemoryRecord) : Prop :=
  relevance q b < relevance q a ∨
    (relevance q a = relevance q b ∧ b.createdAt ≤ a.createdAt)

instance (q : String) : DecidableRel (rankRel q) := fun a b =>
  inferInstanceAs (Decidable (relevance q b < relevance q a ∨
    (relevance q a = relevance q b ∧ b.createdAt ≤ a.createdAt)))

instance (q : String) : IsTotal MemoryRecord (rankRel q) :=
  ⟨fun a b => by unfold rankRel; omega⟩

instance (q : String) : IsTrans MemoryRecord (rankRel q) :=
  ⟨fun a b c hab hbc => by unfold rankRel at *; omega⟩

/-- Modelled from the spec: `search(user_id, query)` of the Memory Index —
records of the given user matching the query, ordered by relevance then
recency (memory_service.search_memory of agentic_workflow_system.py is
absent from src/). -/
def search_memory (records : List MemoryRecord) (u q : String) : List MemoryRecord :=
  List.insertionSort (rankRel q)
    (records.filter (fun r => decide (r.user_id = u ∧ 0 < relevance q r)))

/-- Modelled from the spec: `add(record)` of the Memory Index — append-only,
never mutating an existing record. -/
def add_record (records : List MemoryRecord) (r : MemoryRecord) : List MemoryRecord :=
  r :: records

/-- A course-snapshot record for the end-to-end scenario witness. -/
def snapshotRecord : MemoryRecord :=
  { recordType := "course_snapshot", user_id := "u1",
    content := "Course: Cell Biology - an introduction. Level: Beginner",
    metadata := "course", createdAt := 10 }

/-! ### Context Assembler (spec section 4.3, MEMORY_AND_COURSE_CONTEXT_PLAN.md) -/

/-- The most recent user query and agent response kept in
`session.state[chat_context]`. -/
structure ChatContext where
  lastUserQuery : String
  lastAgentResponse : String
deriving Repr, DecidableEq

/-- Course attributes as stored in the relational store, including the
optional structured course-details JSON kept verbatim. -/
structure CourseInfo where
  id : String
  title : String
  description : String
  level : String
  session : String
  instructor : String
  detailsJson : Option String
deriving Repr, DecidableEq

/-- Per-session data read by the assembler. -/
structure SessionData where
  userId : String
  chat : ChatContext
  currentCourse : Option CourseInfo
deriving Repr, DecidableEq

/-- The Context Store as read by the assembler. -/
structure ContextStore where
  sessions : List (String × SessionData)
deriving Repr, DecidableEq

/-- A read of the Context Store: returns the looked-up session data together
with the (unchanged) store. -/
def storeRead (st : ContextStore) (sid : String) : Option SessionData × ContextStore :=
  (st.sessions.lookup sid, st)

/-- Course attributes flattened as Column_Name: Value pairs, per
MEMORY_AND_COURSE_CONTEXT_PLAN.md. -/
def formatCourseAttributes (c : CourseInfo) : String :=
  "Course_ID: " ++ c.id ++ "\n" ++
  "Course_Name: " ++ c.title ++ "\n" ++
  "Course_Level: " ++ c.level ++ "\n" ++
  "Course_Description_Summary: " ++ c.description ++ "\n" ++
  "Course_Session: " ++ c.session ++ "\n" ++
  "Course_Instructor: " ++ c.instructor

/-- The course section of the payload; an unresolved course degrades to an
explicit course-unknown marker. -/
def formatCourseSection : Option CourseInfo → String
  | none => "--- CURRENT COURSE DETAILS ---\nCourse: unknown"
  | some ci =>
    let base := "--- CURRENT COURSE DETAILS ---\n" ++ formatCourseAttributes ci
    match ci.detailsJson with
    | none => base
    | some js =>
      base ++ "\n--- DETAILED COURSE INFORMATION (JSON) ---\n" ++ js

/-- Modelled from the spec: `get_user_context_from_session` of
agentic_workflow_system.py (absent from src/), per
MEMORY_AND_COURSE_CONTEXT_PLAN.md — assembles the consolidated context
payload by pure reads of the Context Store, threading the store through to
show that no write is performed. -/
def get_user_context_from_session (st : ContextStore) (sid : String) :
    Option String × ContextStore :=
  match storeRead st sid with
  | (none, st1) => (none, st1)
  | (some sd, st1) =>
    (some ("--- CONTEXT ---\n" ++
      "Most Recent User Query: " ++ sd.chat.lastUserQuery ++ "\n" ++
      "Agent\x27s Last Response: " ++ sd.chat.lastAgentResponse ++ "\n\n" ++
      formatCourseSection sd.currentCourse ++ "\n--- END CONTEXT ---"), st1)

/-! ### The Generate page (src/src/pages/Generate.tsx) -/

/-- A course as loaded from localStorage in Generate.tsx
(src/src/types/course.ts). -/
structure Course where
  id : String
  title : String
  description : String
  level : String
  documents : List String
deriving Repr, DecidableEq

/-- The course lookup of the Generate mount effect:
`courses.find(c => c.id === courseId)`. -/
def findCourse (courses : List Course) (courseId : String) : Option Course :=
  courses.find? (fun c => c.id == courseId)

/-- The default welcome message of the Generate page. -/
def welcomeDefault : String :=
  "Bienvenue dans le Générateur d\x27examens!\nQue souhaitez-vous créer aujourd\x27hui?"

/-- The welcome message when the course referenced by the URL was found. -/
def welcomeWithCourse (c : Course) : String :=
  "Bienvenue dans le Générateur d\x27examens pour le cours de \"" ++ c.title ++
  "\"!\nDescription du cours: " ++ c.description ++
  "\nQue souhaitez-vous créer aujourd\x27hui?"

/-- The explicit course-unknown marker message produced when the course id of
the URL resolves to no stored course. -/
def courseNotFoundMessage (courseId : String) : String :=
  "Bienvenue dans le Générateur d\x27examens!\nLe cours avec l\x27ID \"" ++ courseId ++
  "\" n\x27a pas été trouvé.\nQue souhaitez-vous créer aujourd\x27hui?"

/-- The initial message content chosen by the Generate mount effect. -/
def initialMessageContent (courses : List Course) (courseId : Option String) : String :=
  match courseId with
  | none => welcomeDefault
  | some cid =>
    match findCourse courses cid with
    | some c => welcomeWithCourse c
    | none => courseNotFoundMessage cid

/-- The `currentCourse` state set by the mount effect: the resolved course,
or none when the id is absent or unresolved. -/
def mountCourse (courses : List Course) (courseId : Option String) : Option Course :=
  courseId.bind (findCourse courses)

/-- The course fields copied into the /run payload (`course_data`). -/
structure CourseData where
  id : String
  title : String
  description : String
  level : String
deriving Repr, DecidableEq

/-- The payload of a POST to the /run endpoint. -/
structure RunPayload where
  app_name : String
  user_id : String
  session_id : String
  messageText : String
  course_data : Option CourseData
deriving Repr, DecidableEq

/-- The configured agent application name. -/
def AGENT_NAME : String := "multi_tool_agent"

/-- Build the /run payload of `handleSendMessage`: the course fields are
copied when a course is set and `course_data` is null otherwise. -/
def mkRunPayload (userId sessionId message : String) (currentCourse : Option Course) :
    RunPayload :=
  { app_name := AGENT_NAME, user_id := userId, session_id := sessionId,
    messageText := message,
    course_data := currentCourse.map (fun c =>
      { id := c.id, title := c.title, description := c.description, level := c.level }) }

/-- A part of an ADK event. -/
structure EventPart where
  text : Option String
deriving Repr, DecidableEq

/-- The content of an ADK event. -/
structure EventContent where
  parts : List EventPart
deriving Repr, DecidableEq

/-- An event returned by the /run endpoint. -/
structure AgentEvent where
  content : Option EventContent
deriving Repr, DecidableEq

/-- Text collected from the parts of one event, in part order.  The source
guard `if (part.text)` skips absent text fields and (being JavaScript
truthiness) empty strings, which contribute nothing either way. -/
def partsText : List EventPart → String
  | [] => ""
  | p :: rest =>
    (match p.text with
     | none => ""
     | some t => if t = "" then "" else t) ++ partsText rest

/-- Text collected from the returned events in event order then part order,
as accumulated by the response loop of `handleSendMessage`. -/
def collectText : List AgentEvent → String
  | [] => ""
  | e :: rest =>
    (match e.content with
     | none => ""
     | some c => partsText c.parts) ++ collectText rest

/-- Does some returned event contain a text part? -/
def hasTextPart (events : List AgentEvent) : Bool :=
  events.any (fun e =>
    match e.content with
    | some c => c.parts.any (fun p => p.text.isSome)
    | none => false)

/-- The content of the agent chat message:
`agentResponseText.trim() || "No text response from agent."`. -/
def agentMessageContent (events : List AgentEvent) : String :=
  let t := strTrim (collectText events)
  if t = "" then "No text response from agent." else t

/-- A chat message of the Generate page message list. -/
structure ChatMessage where
  id : String
  role : String
  content : String
  timestamp : Nat
deriving Repr, DecidableEq

/-- Outcome of the fetch to the /run endpoint: the parsed events on success,
the error detail of a non-ok response, or a network error. -/
inductive FetchResult where
  | ok (events : List AgentEvent)
  | httpError (detail : String)
  | networkError (message : String)
deriving Repr, DecidableEq

/-- The state of the Generate component that the chat turn logic touches:
the message list, the input field, the in-flight turn (the `isGenerating`
flag, carried as the list of pending turns so that overlap is observable),
and the identifiers and course fixed at mount. -/
structure UiState where
  messages : List ChatMessage
  input : String
  inFlight : List String
  userId : String
  sessionId : String
  currentCourse : Option Course
deriving Repr, DecidableEq

/-- The user-visible events of the chat card: editing the input, pressing
send (or Enter), and the completion of the fetch started by a send. -/
inductive UiEvent where
  | typeInput (text : String)
  | pressSend (now : Nat)
  | finish (now : Nat) (result : FetchResult)
deriving Repr, DecidableEq

/-- The user message appended at the start of `handleSendMessage`. -/
def userMessageOf (input : String) (now : Nat) : ChatMessage :=
  { id := toString now, role := "user", content := input, timestamp := now }

/-- The message appended when the fetch completes: the agent response on
success, an error chat message otherwise. -/
def responseMessageOf (result : FetchResult) (now : Nat) : ChatMessage :=
  match result with
  | .ok events =>
    { id := toString now ++ "_agent", role := "system",
      content := agentMessageContent events, timestamp := now }
  | .httpError detail =>
    { id := toString now ++ "_error", role := "system",
      content := "Error: " ++ detail, timestamp := now }
  | .networkError msg =>
    { id := toString now ++ "_error", role := "system",
      content := "Error: " ++ msg, timestamp := now }

/-- One step of the Generate chat card.  Typing is ignored while a turn is
in flight (the input is disabled); send is ignored while a turn is in
flight (`disabled={isGenerating}` on the button and the `!isGenerating`
guard on Enter) or when the trimmed input is empty; a send appends the user
message, clears the input and starts the turn; the fetch completion appends
the response (or error) message and ends the turn. -/
def uiStep (s : UiState) : UiEvent → UiState
  | .typeInput text => if s.inFlight = [] then { s with input := text } else s
  | .pressSend now =>
    if s.inFlight = [] ∧ strTrim s.input ≠ "" then
      { s with messages := s.messages ++ [userMessageOf s.input now],
               input := "",
               inFlight := [s.input] }
    else s
  | .finish now result =>
    match s.inFlight with
    | [] => s
    | _ :: rest =>
      { s with messages := s.messages ++ [responseMessageOf result now],
               inFlight := rest }

/-- Run a sequence of UI events. -/
def uiRun (s : UiState) : List UiEvent → UiState
  | [] => s
  | e :: es => uiRun (uiStep s e) es

/-- The Generate component state right after mount: the initial system
message, fresh `user_`/`session_` identifiers derived from uuids, and the
resolved course. -/
def uiInit (courses : List Course) (courseId : Option String)
    (userUuid sessionUuid : String) (t0 : Nat) : UiState :=
  { messages := [{ id := "initial-message", role := "system",
                   content := initialMessageContent courses courseId, timestamp := t0 }],
    input := "",
    inFlight := [],
    userId := "user_" ++ userUuid,
    sessionId := "session_" ++ sessionUuid,
    currentCourse := mountCourse courses courseId }

/-- The whole async body of `handleSendMessage`: the send at time `t1`
followed by the completion of its fetch at time `t2`. -/
def handleSendMessage (s : UiState) (t1 t2 : Nat) (result : FetchResult) : UiState :=
  uiStep (uiStep s (.pressSend t1)) (.finish t2 result)

/-- Entries of the message list are strictly ordered by timestamp. -/
def tsStrict (l : List ChatMessage) : Prop :=
  List.Pairwise (fun a b => a.timestamp < b.timestamp) l

/-- Entries of the message list are ordered by non-decreasing timestamps. -/
def tsMono (l : List ChatMessage) : Prop :=
  List.Pairwise (fun a b => a.timestamp ≤ b.timestamp) l

instance (l : List ChatMessage) : Decidable (tsStrict l) :=
  inferInstanceAs (Decidable (List.Pairwise _ l))

instance (l : List ChatMessage) : Decidable (tsMono l) :=
  inferInstanceAs (Decidable (List.Pairwise _ l))

/-- Every timestamp of the list is at most `t`. -/
def msgBound (l : List ChatMessage) (t : Nat) : Prop :=
  ∀ m ∈ l, m.timestamp ≤ t

instance (l : List ChatMessage) (t : Nat) : Decidable (msgBound l t) :=
  inferInstanceAs (Decidable (∀ m ∈ l, m.timestamp ≤ t))

/-- The clock reading carried by a UI event (input editing reads no clock). -/
def eventTime : UiEvent → Nat
  | .typeInput _ => 0
  | .pressSend t => t
  | .finish t _ => t

/-- An event list in which a turn is sent and completed within the same
millisecond, as the millisecond clock of the source permits. -/
def sameMsEvents : List UiEvent :=
  [.typeInput "Bonjour", .pressSend 5, .finish 5 (.ok [])]

/-- A returned event whose only text part is whitespace. -/
def whitespaceEvents : List AgentEvent :=
  [{ content := some { parts := [{ text := some " " }] } }]

/-! ### Session bootstrap (createSession in Generate.tsx) -/

/-- A session record of the agent server, keyed by user id and session id
exactly as the bootstrap URL
/apps/\x7bapp\x7d/users/\x7buserId\x7d/sessions/\x7bsessionId\x7d addresses it. -/
structure SessionRecord where
  user_id : String
  session_id : String
deriving Repr, DecidableEq

/-- Outcome of a `createSession` call as distinguished by the source: a 200
creates the session, a 400 whose body says the session already exists makes
the component reuse it. -/
inductive CreateOutcome where
  | created (sid : String)
  | reused (sid : String)
deriving Repr, DecidableEq

/-- The session bootstrap of Generate.tsx: POST the (user, session)
pair; an existing pair is reused and nothing new is recorded, otherwise a
new record is created. -/
def createSession (store : List SessionRecord) (u sid : String) :
    List SessionRecord × CreateOutcome :=
  if ({ user_id := u, session_id := sid } : SessionRecord) ∈ store then
    (store, .reused sid)
  else
    (store ++ [{ user_id := u, session_id := sid }], .created sid)

/-- A server store already holding a session for user `user_a`, used by the
bootstrap counterexample. -/
def storeWithSession : List SessionRecord :=
  [{ user_id := "user_a", session_id := "session_1" }]

/-- A sample stored course, used by witnesses. -/
def bioCourse : Course :=
  { id := "c1", title := "Biologie introductive",
    description := "Cours de biologie", level := "Introductif", documents := [] }

/-- A freshly mounted state with a question typed, used by witnesses. -/
def typedState : UiState :=
  uiStep (uiInit [] none "u" "s" 0) (.typeInput "Question")

/-- A state with a turn in flight, used by witnesses. -/
def busyState : UiState :=
  { messages := [], input := "x", inFlight := ["x"],
    userId := "u", sessionId := "s", currentCourse := none }

/-! ### Helper lemmas about the Generate chat card -/

theorem str_append_empty (s : String) : s ++ "" = s := by
  cases s with
  | mk d => show String.mk (d ++ []) = String.mk d; rw [List.append_nil]

theorem uiStep_messages_append (s : UiState) (e : UiEvent) :
    ∃ tl, (uiStep s e).messages = s.messages ++ tl := by
  cases e with
  | typeInput t =>
    by_cases h : s.inFlight = []
    · exact ⟨[], by simp [uiStep, h]⟩
    · exact ⟨[], by simp [uiStep, h]⟩
  | pressSend now =>
    by_cases h : s.inFlight = [] ∧ strTrim s.input ≠ ""
    · exact ⟨[userMessageOf s.input now], by simp [uiStep, h]⟩
    · exact ⟨[], by simp [uiStep, h]⟩
  | finish now r =>
    cases h : s.inFlight with
    | nil => exact ⟨[], by simp [uiStep, h]⟩
    | cons a rest => exact ⟨[responseMessageOf r now], by simp [uiStep, h]⟩

theorem uiStep_inFlight_bound (s : UiState) (e : UiEvent)
    (h : s.inFlight.length ≤ 1) : (uiStep s e).inFlight.length ≤ 1 := by
  cases e with
  | typeInput t =>
    by_cases hf : s.inFlight = []
    · simp [uiStep, hf]
    · simpa [uiStep, hf] using h
  | pressSend now =>
    by_cases hf : s.inFlight = [] ∧ strTrim s.input ≠ ""
    · simp [uiStep, hf]
    · simpa [uiStep, hf] using h
  | finish now r =>
    cases hf : s.inFlight with
    | nil => simp [uiStep, hf]
    | cons a rest =>
      rw [hf] at h
      simp only [List.length_cons] at h
      simp [uiStep, hf]
      omega

theorem uiRun_inFlight_bound (evs : List UiEvent) (s : UiState)
    (h : s.inFlight.length ≤ 1) : (uiRun s evs).inFlight.length ≤ 1 := by
  induction evs generalizing s with
  | nil => simpa [uiRun] using h
  | cons e es ih => exact ih (uiStep s e) (uiStep_inFlight_bound s e h)

theorem uiStep_busy_send (s : UiState) (h : s.inFlight ≠ []) (now : Nat) :
    uiStep s (.pressSend now) = s := by
  have hc : ¬(s.inFlight = [] ∧ strTrim s.input ≠ "") := fun hh => h hh.1
  simp [uiStep, hc]

theorem handleSendMessage_messages (s : UiState) (t1 t2 : Nat) (r : FetchResult)
    (h1 : s.inFlight = []) (h2 : strTrim s.input ≠ "") :
    (handleSendMessage s t1 t2 r).messages
      = s.messages ++ [userMessageOf s.input t1, responseMessageOf r t2] := by
  unfold handleSendMessage
  simp [uiStep, h1, h2]

theorem uiStep_fixed_ids (s : UiState) (e : UiEvent) :
    (uiStep s e).sessionId = s.sessionId ∧ (uiStep s e).userId = s.userId ∧
      (uiStep s e).currentCourse = s.currentCourse := by
  cases e with
  | typeInput t =>
    by_cases h : s.inFlight = [] <;> simp [uiStep, h]
  | pressSend now =>
    by_cases h : s.inFlight = [] ∧ strTrim s.input ≠ "" <;> simp [uiStep, h]
  | finish now r =>
    cases h : s.inFlight <;> simp [uiStep, h]

theorem uiStep_tsMono (s : UiState) (e : UiEvent)
    (hm : tsMono s.messages) (hb : msgBound s.messages (eventTime e)) :
    tsMono (uiStep s e).messages := by
  cases e with
  | typeInput t =>
    by_cases h : s.inFlight = [] <;> simpa [uiStep, h] using hm
  | pressSend now =>
    by_cases h : s.inFlight = [] ∧ strTrim s.input ≠ ""
    · have hstep : uiStep s (.pressSend now)
          = { s with messages := s.messages ++ [userMessageOf s.input now],
                     input := "", inFlight := [s.input] } := by
        simp [uiStep, h]
      rw [hstep]
      unfold tsMono at hm ⊢
      show List.Pairwise _ (s.messages ++ [userMessageOf s.input now])
      rw [List.pairwise_append]
      refine ⟨hm, by simp, ?_⟩
      intro a ha b hbm
      simp only [List.mem_singleton] at hbm
      subst hbm
      exact hb a ha
    · simpa [uiStep, h] using hm
  | finish now r =>
    cases h : s.inFlight with
    | nil => simpa [uiStep, h] using hm
    | cons x rest =>
      have hstep : uiStep s (.finish now r)
          = { s with messages := s.messages ++ [responseMessageOf r now],
                     inFlight := rest } := by
        simp [uiStep, h]
      rw [hstep]
      unfold tsMono at hm ⊢
      show List.Pairwise _ (s.messages ++ [responseMessageOf r now])
      rw [List.pairwise_append]
      refine ⟨hm, by simp, ?_⟩
      intro a ha b hbm
      simp only [List.mem_singleton] at hbm
      subst hbm
      have := hb a ha
      cases r <;> simpa [responseMessageOf, eventTime] using this

theorem partsText_no_text (parts : List EventPart)
    (h : ∀ p ∈ parts, p.text.isSome = false) : partsText parts = "" := by
  induction parts with
  | nil => rfl
  | cons p rest ih =>
    have hp := h p (List.mem_cons_self p rest)
    have hrest : partsText rest = "" := ih (fun q hq => h q (List.mem_cons_of_mem p hq))
    cases hpt : p.text with
    | some t => rw [hpt] at hp; simp at hp
    | none => simp [partsText, hpt, hrest]

theorem collectText_no_text (events : List AgentEvent)
    (h : hasTextPart events = false) : collectText events = "" := by
  induction events with
  | nil => rfl
  | cons e rest ih =>
    simp only [hasTextPart, List.any_cons, Bool.or_eq_false_iff] at h
    obtain ⟨he, hrest⟩ := h
    have ihr : collectText rest = "" := ih (by simpa [hasTextPart] using hrest)
    cases hec : e.content with
    | none => simp [collectText, hec, ihr]
    | some c =>
      rw [hec] at he
      have hparts : partsText c.parts = "" := by
        apply partsText_no_text
        intro p hp
        have := List.any_eq_false.mp he p hp
        simpa using this
      simp [collectText, hec, hparts, ihr]

/-! ### Claim theorems about the Generate chat card -/

/-- C5: for every session, at most one turn is in flight at any time — from
the mount state, no sequence of UI events ever has more than one pending
turn, and pressing send while a turn is in flight leaves the component state
unchanged, so the writes of two turns of one session never interleave. -/
theorem turns_serialized_per_session :
    (∀ courses courseId userUuid sessionUuid t0 evs,
      (uiRun (uiInit courses courseId userUuid sessionUuid t0) evs).inFlight.length ≤ 1)
    ∧ (∀ s : UiState, s.inFlight ≠ [] → ∀ now, uiStep s (.pressSend now) = s) := by
  constructor
  · intro courses courseId userUuid sessionUuid t0 evs
    apply uiRun_inFlight_bound
    simp [uiInit]
  · exact fun s h now => uiStep_busy_send s h now

/-- Witness for C5: a concrete run stays within the in-flight bound, and a
concrete busy state ignores a second send. -/
theorem turns_serialized_per_session_witness :
    (uiRun (uiInit [] none "u" "s" 0)
      [UiEvent.typeInput "Salut", UiEvent.pressSend 1]).inFlight.length ≤ 1
    ∧ uiStep busyState (.pressSend 2) = busyState := by
  exact ⟨turns_serialized_per_session.1 [] none "u" "s" 0
           [UiEvent.typeInput "Salut", UiEvent.pressSend 1],
         turns_serialized_per_session.2 busyState (by decide) 2⟩

/-- C4 counterexample: the claim requires history entries to be strictly
ordered by timestamp, but the source stamps messages with the millisecond
clock (`new Date()`) and nothing prevents a turn from being sent and
completed within the same millisecond: this run produces timestamps
[3, 5, 5], which are not strictly increasing. -/
theorem turn_history_strict_timestamps_cex :
    ¬ tsStrict (uiRun (uiInit [] none "u" "s" 3) sameMsEvents).messages
    ∧ (uiRun (uiInit [] none "u" "s" 3) sameMsEvents).messages.map
        (fun m => m.timestamp) = [3, 5, 5] := by
  decide

/-- C4 (amended): processing a chat turn only appends to the message
history — every operation extends the previous history, so the length never
decreases and no entry is removed or reordered; each completed turn strictly
increases the length (by two: user message and response); and timestamps are
non-decreasing, strictly monotone only when the clock advances between
appends. -/
theorem turn_history_append_only :
    (∀ s e, ∃ tl, (uiStep s e).messages = s.messages ++ tl)
    ∧ (∀ s e, s.messages.length ≤ (uiStep s e).messages.length)
    ∧ (∀ (s : UiState) t1 t2 r, s.inFlight = [] → strTrim s.input ≠ "" →
        (handleSendMessage s t1 t2 r).messages.length = s.messages.length + 2)
    ∧ (∀ s e, tsMono s.messages → msgBound s.messages (eventTime e) →
        tsMono (uiStep s e).messages) := by
  refine ⟨uiStep_messages_append, ?_, ?_, uiStep_tsMono⟩
  · intro s e
    obtain ⟨tl, htl⟩ := uiStep_messages_append s e
    rw [htl]
    simp
  · intro s t1 t2 r h1 h2
    rw [handleSendMessage_messages s t1 t2 r h1 h2]
    simp

/-- Witness for C4 at a concrete turn. -/
theorem turn_history_append_only_witness :
    (handleSendMessage typedState 1 2 (.ok [])).messages.length
        = typedState.messages.length + 2
    ∧ tsMono (uiStep typedState (.pressSend 1)).messages := by
  exact ⟨turn_history_append_only.2.2.1 typedState 1 2 (.ok []) (by decide) (by decide),
         turn_history_append_only.2.2.2 typedState (.pressSend 1) (by decide) (by decide)⟩

/-- C10 counterexample: an event whose only text part is whitespace makes
the trimmed concatenation empty, yet a text part was returned, and the
appended content is the fallback string — not the trimmed concatenation the
claim prescribes for that case. -/
theorem run_response_text_cex :
    hasTextPart whitespaceEvents = true
    ∧ strTrim (collectText whitespaceEvents) = ""
    ∧ agentMessageContent whitespaceEvents = "No text response from agent."
    ∧ agentMessageContent whitespaceEvents ≠ strTrim (collectText whitespaceEvents) := by
  decide

/-- C10 (amended): every successful /run call appends exactly one agent
message after the user message; its content is the trimmed concatenation of
the part texts in event order then part order whenever that is non-empty,
and exactly "No text response from agent." whenever the trimmed
concatenation is empty — in particular whenever no returned event contains a
text part. -/
theorem run_response_single_agent_message (s : UiState) (t1 t2 : Nat)
    (events : List AgentEvent) (h1 : s.inFlight = []) (h2 : strTrim s.input ≠ "") :
    (handleSendMessage s t1 t2 (.ok events)).messages
      = s.messages ++ [userMessageOf s.input t1,
          { id := toString t2 ++ "_agent", role := "system",
            content := agentMessageContent events, timestamp := t2 }]
    ∧ agentMessageContent events
        = (if strTrim (collectText events) = "" then "No text response from agent."
           else strTrim (collectText events))
    ∧ (hasTextPart events = false →
        agentMessageContent events = "No text response from agent.") := by
  refine ⟨?_, rfl, ?_⟩
  · rw [handleSendMessage_messages s t1 t2 _ h1 h2]
    rfl
  · intro h
    have hc := collectText_no_text events h
    simp only [agentMessageContent, hc]
    decide

/-- Witness for C10 at a concrete turn whose /run response has no text
part. -/
theorem run_response_single_agent_message_witness :
    (handleSendMessage typedState 1 2 (.ok [])).messages
      = typedState.messages ++ [userMessageOf typedState.input 1,
          { id := toString 2 ++ "_agent", role := "system",
            content := agentMessageContent [], timestamp := 2 }] := by
  exact (run_response_single_agent_message typedState 1 2 [] (by decide) (by decide)).1

/-- C3 counterexample: the server already holds a session for user `user_a`
(for the course the page was opened on), yet bootstrapping again with the
fresh session uuid of a remount creates a second Session record instead of
returning the existing session id — the bootstrap is keyed by
(user, session_id), not by (user, course). -/
theorem session_bootstrap_cex :
    (createSession storeWithSession "user_a" "session_2").2
        = CreateOutcome.created "session_2"
    ∧ (createSession storeWithSession "user_a" "session_2").1.length
        = storeWithSession.length + 1 := by
  decide

/-- C3 (amended): the bootstrap is idempotent keyed by (user, session_id): a
call for a pair the server already holds returns the existing session id and
records nothing new, a repeated call always reuses, and no chat-card event
ever changes the component session id, so sequential turns of a session
address the same reused Session record. -/
theorem session_bootstrap_idempotent (store : List SessionRecord) (u sid : String)
    (h : ({ user_id := u, session_id := sid } : SessionRecord) ∈ store) :
    createSession store u sid = (store, .reused sid)
    ∧ (∀ store2 u2 s2,
        createSession (createSession store2 u2 s2).1 u2 s2
          = ((createSession store2 u2 s2).1, CreateOutcome.reused s2))
    ∧ (∀ (s : UiState) (e : UiEvent), (uiStep s e).sessionId = s.sessionId) := by
  refine ⟨by simp [createSession, h], ?_, fun s e => (uiStep_fixed_ids s e).1⟩
  intro store2 u2 s2
  by_cases h2 : ({ user_id := u2, session_id := s2 } : SessionRecord) ∈ store2
  · simp [createSession, h2]
  · have hm : ({ user_id := u2, session_id := s2 } : SessionRecord)
        ∈ store2 ++ [{ user_id := u2, session_id := s2 }] :=
      List.mem_append_right _ (List.mem_singleton_self _)
    simp [createSession, h2, hm]

/-- Witness for C3 at the concrete stored pair. -/
theorem session_bootstrap_idempotent_witness :
    createSession storeWithSession "user_a" "session_1"
      = (storeWithSession, CreateOutcome.reused "session_1") := by
  exact (session_bootstrap_idempotent storeWithSession "user_a" "session_1" (by decide)).1

/-- C7: when the referenced course cannot be resolved the lookup yields a
not-found outcome (an Option none, never an exception), the initial message
carries the explicit course-not-found marker, the /run payload carries a
null `course_data` in place of the course fields, and the chat turn still
completes, appending its two messages. -/
theorem course_unresolved_degrades (courses : List Course) (cid : String)
    (h : findCourse courses cid = none) :
    mountCourse courses (some cid) = none
    ∧ initialMessageContent courses (some cid) = courseNotFoundMessage cid
    ∧ (∀ u sid m, (mkRunPayload u sid m (mountCourse courses (some cid))).course_data = none)
    ∧ (∀ (s : UiState) t1 t2 r, s.currentCourse = none → s.inFlight = [] →
        strTrim s.input ≠ "" →
        (handleSendMessage s t1 t2 r).messages.length = s.messages.length + 2) := by
  have hm : mountCourse courses (some cid) = none := by simp [mountCourse, h]
  refine ⟨hm, by simp [initialMessageContent, h], ?_, ?_⟩
  · intro u sid m
    rw [hm]
    rfl
  · intro s t1 t2 r hc h1 h2
    rw [handleSendMessage_messages s t1 t2 r h1 h2]
    simp

/-- Witness for C7 at a concrete store and unresolved course id. -/
theorem course_unresolved_degrades_witness :
    mountCourse [bioCourse] (some "missing") = none
    ∧ initialMessageContent [bioCourse] (some "missing")
        = courseNotFoundMessage "missing" := by
  exact ⟨(course_unresolved_degrades [bioCourse] "missing" (by decide)).1,
         (course_unresolved_degrades [bioCourse] "missing" (by decide)).2.1⟩

/-! ### Claim theorems about the workflow orchestrator -/

theorem nextPhase_allowed (p : WorkflowPhase) (o : ReviewOutcome) :
    allowedTransitionB p (nextPhase p o) = true := by
  rcases p with m | m
  · cases m <;> cases o <;> simp [nextPhase, allowedTransitionB, MainPhase.advance]
  · cases o <;> simp [nextPhase, allowedTransitionB]

theorem nextPhase_idx_mono (p : WorkflowPhase) (o : ReviewOutcome) :
    p.idx ≤ (nextPhase p o).idx := by
  rcases p with m | m
  · cases m <;> cases o <;>
      simp [nextPhase, WorkflowPhase.idx, MainPhase.idx, MainPhase.advance]
  · cases o <;> simp [nextPhase, WorkflowPhase.idx]

theorem done_turn (s : Session) (msg : String) (now : Nat)
    (attempts : List AttemptOutcome) (review : ReviewOutcome)
    (h : s.phase = .main .done) :
    handle_chat_message_enhanced s msg now attempts review
      = { result := .success "Workflow complete.", session := s, invoked := none } := by
  simp [handle_chat_message_enhanced, h, WorkflowPhase.invokedAgent]

theorem runTurns_done (inputs : List TurnInput) (s : Session)
    (h : s.phase = .main .done) :
    (runTurns s inputs).1 = s ∧ ∀ a ∈ (runTurns s inputs).2, a = none := by
  induction inputs with
  | nil => simp [runTurns]
  | cons i rest ih =>
    have hd := done_turn s i.message i.now i.attempts i.review h
    obtain ⟨ih1, ih2⟩ := ih
    constructor
    · simp [runTurns, hd, ih1]
    · intro a ha
      simp only [runTurns, hd, List.mem_cons] at ha
      rcases ha with ha | ha
      · exact ha
      · exact ih2 a ha

/-- C1: every phase transition of the orchestrator is one the section-4.5
state machine permits — stay, advance forward, enter the revision side
state, or return to the state that produced the artifact — the phase index
never moves backward, the revision branch returns exactly to its origin,
and once the phase is `Done` no turn changes the session and no sequence of
turns produces any further agent invocation. -/
theorem workflow_phase_forward_only :
    (∀ p o, allowedTransitionB p (nextPhase p o) = true)
    ∧ (∀ p o, p.idx ≤ (nextPhase p o).idx)
    ∧ (∀ m o, nextPhase (.revisionRequested m) o = .main m)
    ∧ (∀ (s : Session) msg now attempts review, s.phase = .main .done →
        handle_chat_message_enhanced s msg now attempts review
          = { result := .success "Workflow complete.", session := s, invoked := none })
    ∧ (∀ (s : Session) inputs, s.phase = .main .done →
        (runTurns s inputs).1 = s ∧ ∀ a ∈ (runTurns s inputs).2, a = none) := by
  refine ⟨nextPhase_allowed, nextPhase_idx_mono, ?_, ?_, ?_⟩
  · intro m o
    cases o <;> rfl
  · intro s msg now attempts review h
    exact done_turn s msg now attempts review h
  · intro s inputs h
    exact runTurns_done inputs s h

/-- Witness for C1: a concrete `Done` session is untouched by a turn and by
a run of turns. -/
theorem workflow_phase_forward_only_witness :
    handle_chat_message_enhanced doneSession "again?" 9 [AttemptOutcome.ok "x"]
        ReviewOutcome.approval
      = { result := TurnResult.success "Workflow complete.", session := doneSession,
          invoked := none }
    ∧ (runTurns doneSession [sampleTurn]).1 = doneSession := by
  exact ⟨workflow_phase_forward_only.2.2.2.1 doneSession "again?" 9
           [AttemptOutcome.ok "x"] ReviewOutcome.approval rfl,
         (workflow_phase_forward_only.2.2.2.2 doneSession [sampleTurn] rfl).1⟩

/-- C2: when every attempt of the underlying agent call within the retry
budget fails, the turn surfaces `agentUnavailable` for that turn only and
the Session — phase, scoped entries and turn history alike — is returned
exactly as it was before the turn; no partial mutation is visible. -/
theorem agent_unavailable_pre_turn_state (s : Session) (msg : String) (now : Nat)
    (attempts : List AttemptOutcome) (review : ReviewOutcome) (a : AgentId)
    (hagent : s.phase.invokedAgent = some a)
    (hfail : firstSuccess (attempts.take (retryBudget + 1)) = none) :
    handle_chat_message_enhanced s msg now attempts review
      = { result := .agentUnavailable, session := s, invoked := some a } := by
  simp [handle_chat_message_enhanced, hagent, hfail]

/-- Witness for C2: three timeouts exhaust the retry budget (a success past
the budget is never reached) and the concrete session is unchanged. -/
theorem agent_unavailable_pre_turn_state_witness :
    handle_chat_message_enhanced activeSession "Define objectives" 5
        [AttemptOutcome.timeout, AttemptOutcome.timeout, AttemptOutcome.timeout,
         AttemptOutcome.ok "late"] ReviewOutcome.approval
      = { result := TurnResult.agentUnavailable, session := activeSession,
          invoked := some AgentId.objectivesAgent } := by
  exact agent_unavailable_pre_turn_state activeSession "Define objectives" 5
    [AttemptOutcome.timeout, AttemptOutcome.timeout, AttemptOutcome.timeout,
     AttemptOutcome.ok "late"] ReviewOutcome.approval AgentId.objectivesAgent
    (by decide) (by decide)

/-! ### Claim theorems about the router -/

/-- C6: `route` is total — a phase that pins an agent is obeyed, an open
session falls through to classification, input matching no label routes to
the generic orchestrator agent, input on which any two of the three labels
tie at the top score routes to the generic orchestrator agent, and input
with a unique best label routes to that label, so no message ever errors. -/
theorem route_total_and_default :
    (∀ phase message a, pinnedAgent phase = some a → route phase message = a)
    ∧ (∀ phase message, pinnedAgent phase = none →
        route phase message = classifyMessage message)
    ∧ (∀ message,
        keywordScore objectivesKeywords (strLower message) = 0 →
        keywordScore syllabusKeywords (strLower message) = 0 →
        keywordScore assessmentKeywords (strLower message) = 0 →
        route none message = AgentId.orchestrator)
    ∧ (∀ message,
        keywordScore objectivesKeywords (strLower message)
            = keywordScore syllabusKeywords (strLower message) →
        keywordScore assessmentKeywords (strLower message)
            ≤ keywordScore objectivesKeywords (strLower message) →
        route none message = AgentId.orchestrator)
    ∧ (∀ message,
        keywordScore objectivesKeywords (strLower message)
            = keywordScore assessmentKeywords (strLower message) →
        keywordScore syllabusKeywords (strLower message)
            ≤ keywordScore objectivesKeywords (strLower message) →
        route none message = AgentId.orchestrator)
    ∧ (∀ message,
        keywordScore syllabusKeywords (strLower message)
            = keywordScore assessmentKeywords (strLower message) →
        keywordScore objectivesKeywords (strLower message)
            ≤ keywordScore syllabusKeywords (strLower message) →
        route none message = AgentId.orchestrator)
    ∧ (∀ message,
        keywordScore syllabusKeywords (strLower message)
            < keywordScore objectivesKeywords (strLower message) →
        keywordScore assessmentKeywords (strLower message)
            < keywordScore objectivesKeywords (strLower message) →
        route none message = AgentId.objectivesAgent)
    ∧ (∀ message,
        keywordScore objectivesKeywords (strLower message)
            < keywordScore syllabusKeywords (strLower message) →
        keywordScore assessmentKeywords (strLower message)
            < keywordScore syllabusKeywords (strLower message) →
        route none message = AgentId.syllabusAgent)
    ∧ (∀ message,
        keywordScore objectivesKeywords (strLower message)
            < keywordScore assessmentKeywords (strLower message) →
        keywordScore syllabusKeywords (strLower message)
            < keywordScore assessmentKeywords (strLower message) →
        route none message = AgentId.assessmentAgent) := by
  have hopen : ∀ message, route none message = classifyMessage message := fun _ => rfl
  refine ⟨?_, ?_, ?_, ?_, ?_, ?_, ?_, ?_, ?_⟩
  · intro phase message a h
    simp [route, h]
  · intro phase message h
    simp [route, h]
  · intro message h1 h2 h3
    rw [hopen]
    simp only [classifyMessage]
    set so := keywordScore objectivesKeywords (strLower message) with hso
    set ss := keywordScore syllabusKeywords (strLower message) with hss
    set sa := keywordScore assessmentKeywords (strLower message) with hsa
    split_ifs <;> first | rfl | omega
  · intro message h1 h2
    rw [hopen]
    simp only [classifyMessage]
    set so := keywordScore objectivesKeywords (strLower message) with hso
    set ss := keywordScore syllabusKeywords (strLower message) with hss
    set sa := keywordScore assessmentKeywords (strLower message) with hsa
    split_ifs <;> first | rfl | omega
  · intro message h1 h2
    rw [hopen]
    simp only [classifyMessage]
    set so := keywordScore objectivesKeywords (strLower message) with hso
    set ss := keywordScore syllabusKeywords (strLower message) with hss
    set sa := keywordScore assessmentKeywords (strLower message) with hsa
    split_ifs <;> first | rfl | omega
  · intro message h1 h2
    rw [hopen]
    simp only [classifyMessage]
    set so := keywordScore objectivesKeywords (strLower message) with hso
    set ss := keywordScore syllabusKeywords (strLower message) with hss
    set sa := keywordScore assessmentKeywords (strLower message) with hsa
    split_ifs <;> first | rfl | omega
  · intro message h1 h2
    rw [hopen]
    simp only [classifyMessage]
    set so := keywordScore objectivesKeywords (strLower message) with hso
    set ss := keywordScore syllabusKeywords (strLower message) with hss
    set sa := keywordScore assessmentKeywords (strLower message) with hsa
    split_ifs <;> first | rfl | omega
  · intro message h1 h2
    rw [hopen]
    simp only [classifyMessage]
    set so := keywordScore objectivesKeywords (strLower message) with hso
    set ss := keywordScore syllabusKeywords (strLower message) with hss
    set sa := keywordScore assessmentKeywords (strLower message) with hsa
    split_ifs <;> first | rfl | omega
  · intro message h1 h2
    rw [hopen]
    simp only [classifyMessage]
    set so := keywordScore objectivesKeywords (strLower message) with hso
    set ss := keywordScore syllabusKeywords (strLower message) with hss
    set sa := keywordScore assessmentKeywords (strLower message) with hsa
    split_ifs <;> first | rfl | omega

/-- Witness for C6 at concrete messages: a pinned phase, unmatched input,
each of the three top-score ties, and a unique best label. -/
theorem route_total_and_default_witness :
    route (some (.main .needsAnalysis)) "Bonjour" = AgentId.objectivesAgent
    ∧ route none "bonjour tout le monde" = AgentId.orchestrator
    ∧ route none "parlons objectifs et syllabus" = AgentId.orchestrator
    ∧ route none "un objectif pour le quiz" = AgentId.orchestrator
    ∧ route none "le syllabus du quiz" = AgentId.orchestrator
    ∧ route none "prepare a quiz exam question" = AgentId.assessmentAgent := by
  refine ⟨route_total_and_default.1 (some (.main .needsAnalysis)) "Bonjour"
            AgentId.objectivesAgent rfl, ?_, ?_, ?_, ?_, ?_⟩
  · exact route_total_and_default.2.2.1 "bonjour tout le monde"
      (by decide) (by decide) (by decide)
  · exact route_total_and_default.2.2.2.1 "parlons objectifs et syllabus"
      (by decide) (by decide)
  · exact route_total_and_default.2.2.2.2.1 "un objectif pour le quiz"
      (by decide) (by decide)
  · exact route_total_and_default.2.2.2.2.2.1 "le syllabus du quiz"
      (by decide) (by decide)
  · exact route_total_and_default.2.2.2.2.2.2.2.2 "prepare a quiz exam question"
      (by decide) (by decide)

/-! ### Claim theorems about the context assembler -/

/-- C8: assembling the context payload is a pure read — it returns the
Context Store unchanged — and with no intervening mutation a second call
returns the identical payload. -/
theorem assemble_pure_idempotent (st : ContextStore) (sid : String) :
    (get_user_context_from_session st sid).2 = st
    ∧ (get_user_context_from_session ((get_user_context_from_session st sid).2) sid).1
        = (get_user_context_from_session st sid).1 := by
  unfold get_user_context_from_session storeRead
  cases h : st.sessions.lookup sid <;> simp [h]

/-! ### Claim theorems about the memory index -/

/-- C9: memory search returns only records of the queried user, ordered by
relevance then recency; a freshly added course snapshot whose content
matches the query is returned for its owner; and a user owning no record of
the store gets the empty result. -/
theorem memory_search_scoped_ranked :
    (∀ records u q r, r ∈ search_memory records u q → r.user_id = u)
    ∧ (∀ records u q, List.Sorted (rankRel q) (search_memory records u q))
    ∧ (∀ records u q r, r.user_id = u → 0 < relevance q r →
        r ∈ search_memory (add_record records r) u q)
    ∧ (∀ records u q, (∀ r ∈ records, r.user_id ≠ u) →
        search_memory records u q = []) := by
  refine ⟨?_, ?_, ?_, ?_⟩
  · intro records u q r hr
    have hperm := List.perm_insertionSort (rankRel q)
      (records.filter (fun x => decide (x.user_id = u ∧ 0 < relevance q x)))
    have hmem : r ∈ records.filter
        (fun x => decide (x.user_id = u ∧ 0 < relevance q x)) :=
      hperm.mem_iff.mp hr
    exact (of_decide_eq_true (List.mem_filter.mp hmem).2).1
  · intro records u q
    exact List.sorted_insertionSort (rankRel q) _
  · intro records u q r h1 h2
    have hfil : r ∈ (add_record records r).filter
        (fun x => decide (x.user_id = u ∧ 0 < relevance q x)) :=
      List.mem_filter.mpr ⟨List.mem_cons_self r records, decide_eq_true ⟨h1, h2⟩⟩
    exact (List.perm_insertionSort (rankRel q) _).mem_iff.mpr hfil
  · intro records u q h
    have hnil : records.filter
        (fun x => decide (x.user_id = u ∧ 0 < relevance q x)) = [] := by
      apply List.filter_eq_nil_iff.mpr
      intro a ha
      simp only [decide_eq_true_eq]
      exact fun hh => h a ha hh.1
    unfold search_memory
    rw [hnil]
    rfl

/-- Witness for C9: the end-to-end scenario — after adding the cell-biology
snapshot for u1, searching as u1 returns it and searching as u2 returns
nothing. -/
theorem memory_search_scoped_ranked_witness :
    snapshotRecord ∈ search_memory (add_record [] snapshotRecord) "u1" "cell biology"
    ∧ search_memory [snapshotRecord] "u2" "cell biology" = [] := by
  exact ⟨memory_search_scoped_ranked.2.2.1 [] "u1" "cell biology" snapshotRecord
           rfl (by decide),
         memory_search_scoped_ranked.2.2.2 [snapshotRecord] "u2" "cell biology"
           (by decide)⟩

end Spec2Proof
